import Mathlib

/-!
Shallow embedding of the autograd-engine excerpt of `pytorch_yk`:
the distributed autograd container (id allocation and context lifecycle),
`InputBuffer` gradient accumulation, the `RecvRpcBackward` boundary node,
`GraphRoot`, the Python engine entry points `PythonEngine::execute` and
`THPEngine_run_backward`.

Tensors are modelled as flat integer vectors (`List Int`); a `Variable` is
an optional tensor, `none` standing for an undefined (absent) gradient,
mirroring `at::Tensor::defined()`.
-/

namespace PyTorchYk

/-- Value of a dense tensor, flattened: one integer per element. -/
abbrev Tensor := List Int

/-- A `torch::autograd::Variable`: an optional tensor; `none` models an
undefined tensor (`!t.defined()` in C++). -/
abbrev Variable := Option Tensor

/-- Mirrors `Tensor::defined()`. -/
def Variable.defined (v : Variable) : Bool := v.isSome

/-- Input metadata recorded on a `Node` for one input slot: the element
count of the expected gradient (shape placeholder used by
`input_metadata(i).zeros_like()`). -/
abbrev InputMetadata := Nat

/-- Mirrors `InputMetadata::zeros_like()`: a zero-valued tensor shaped per
the recorded metadata. -/
def InputMetadata.zeros_like (m : InputMetadata) : Tensor :=
  List.replicate m 0

/-- Metadata of a concrete tensor, as recorded by `add_input_metadata(t)`. -/
def Variable.metadata (v : Variable) : InputMetadata :=
  match v with
  | none => 0
  | some t => t.length

/-- An autograd `Edge`: shared reference to a target node (modelled by an
abstract node id, `none` for the empty edge) plus the input-slot index. -/
structure Edge where
  function : Option Nat
  input_nr : Nat
deriving Repr, DecidableEq

/-! ### `GraphRoot` (src/unnamed/part_000, `struct GraphRoot : public Node`) -/

/-- State of a `GraphRoot` node: the edges handed to the `Node` base
constructor and the captured root gradients (`outputs` member). -/
structure GraphRoot where
  next_edges : List Edge
  input_metadata : List InputMetadata
  outputs : List Variable
deriving Repr

/-- Mirrors the `GraphRoot(edge_list functions, variable_list inputs)`
constructor: stores the edges, copies `inputs` into `outputs`, and records
input metadata for each captured tensor. -/
def GraphRoot.make (functions : List Edge) (inputs : List Variable) : GraphRoot :=
  { next_edges := functions
    input_metadata := inputs.map Variable.metadata
    outputs := inputs }

/-- Mirrors `GraphRoot::apply(variable_list&& inputs)`: returns the stored
`outputs`, ignoring the arguments. -/
def GraphRoot.apply (g : GraphRoot) (_inputs : List Variable) : List Variable :=
  g.outputs

/-! ### `RecvRpcBackward` (src/torch/csrc/distributed/autograd/functions/recvrpc_backward.cpp) -/

/-- `AutogradMetadata` correlating a send/recv pair. -/
structure AutogradMetadata where
  autogradContextId : Nat
  autogradMessageId : Nat
deriving Repr, DecidableEq

/-- The slice of `DistAutogradContext` that `RecvRpcBackward::apply`
touches: its id, the `keep_graph_` flag of its graph task
(`retrieveGraphTask()->keep_graph_`), and the outstanding-RPC futures
(`addOutstandingRpc`), each future modelled by an abstract id. -/
structure DistAutogradContext where
  contextId : Nat
  keepGraph : Bool
  outstandingRpcs : List Nat
deriving Repr, DecidableEq

/-- Mirrors `DistAutogradContext::addOutstandingRpc(jitFuture)`. -/
def DistAutogradContext.addOutstandingRpc (ctx : DistAutogradContext)
    (fut : Nat) : DistAutogradContext :=
  { ctx with outstandingRpcs := ctx.outstandingRpcs ++ [fut] }

/-- `PropagateGradientsReq`: the gradient-propagation RPC message built by
`RecvRpcBackward::apply`. -/
structure PropagateGradientsReq where
  autogradMetadata : AutogradMetadata
  grads : List Tensor
  retainGraph : Bool
deriving Repr, DecidableEq

/-- State of a `RecvRpcBackward` node. `autogradContext` models the
`std::weak_ptr` member: `none` means `lock()` fails because the context was
already released. `input_metadata` is the `Node` base-class metadata used
for `input_metadata(i).zeros_like()`. -/
structure RecvRpcBackward where
  autogradMetadata : AutogradMetadata
  autogradContext : Option DistAutogradContext
  fromWorkerId : Nat
  deviceMap : List (Nat × Nat)
  input_metadata : List InputMetadata
deriving Repr

/-- Error raised by the `TORCH_CHECK(sharedContext, "Autograd context no
longer valid! ...")` guard. -/
inductive RecvError where
  | contextNoLongerValid
deriving Repr, DecidableEq

/-- Observable outcome of a successful `RecvRpcBackward::apply` call: the
destination worker and message of the `rpcAgent->send(...)` call, the
context after `addOutstandingRpc`, and the returned `variable_list`. -/
structure RecvApplyResult where
  dest : Nat
  message : PropagateGradientsReq
  context : DistAutogradContext
  returned : List Variable
deriving Repr

/-- Zero-filling loop at the top of `RecvRpcBackward::apply`: a defined
grad is forwarded, an undefined slot becomes
`input_metadata(i).zeros_like()`. -/
def fillOutputGrads (meta : List InputMetadata) (grads : List Variable) :
    List Tensor :=
  (List.range grads.length).map fun i =>
    match grads.getD i none with
    | some g => g
    | none => InputMetadata.zeros_like (meta.getD i 0)

/-- Mirrors `RecvRpcBackward::apply(variable_list&& grads)`. `futureId`
stands for the future returned by `rpcAgent->send`; the send itself is
modelled by recording destination and message in the result. -/
def RecvRpcBackward.apply (node : RecvRpcBackward) (futureId : Nat)
    (grads : List Variable) : Except RecvError RecvApplyResult :=
  let outputGrads := fillOutputGrads node.input_metadata grads
  match node.autogradContext with
  | none => .error .contextNoLongerValid
  | some sharedContext =>
    let gradCall : PropagateGradientsReq :=
      { autogradMetadata := node.autogradMetadata
        grads := outputGrads
        retainGraph := sharedContext.keepGraph }
    .ok { dest := node.fromWorkerId
          message := gradCall
          context := sharedContext.addOutstandingRpc futureId
          returned := [] }

/-! ### `InputBuffer` (src/torch/csrc/autograd/input_buffer.h) -/

/-- Elementwise tensor addition. -/
def Tensor.add (a b : Tensor) : Tensor := List.zipWith (· + ·) a b

/-- Per-node gradient accumulator, mirroring `struct InputBuffer`: one
optional value per declared input of the owning node. -/
structure InputBuffer where
  buffer : List Variable
deriving Repr

/-- Mirrors `InputBuffer(size_t size) : buffer(size)`: `size`
default-constructed (undefined) variables. -/
def InputBuffer.ofSize (size : Nat) : InputBuffer :=
  ⟨List.replicate size none⟩

/-- Modelled from the spec: the body of `InputBuffer::add` (declared in
input_buffer.h; its translation unit is not part of the excerpt).
"Accumulation rule: adding a value at position p either stores it (if
empty) or adds it elementwise to the existing value, using the
producer/consumer device streams to order the addition safely when the two
differ" — the streams only order the addition, they do not change the
accumulated value, so they are carried but unused here. -/
def InputBuffer.add (g : InputBuffer) (pos : Nat) (var : Tensor)
    (_opt_producer_stream _opt_consumer_stream : Option Nat) : InputBuffer :=
  match g.buffer.getD pos none with
  | none => ⟨g.buffer.set pos (some var)⟩
  | some old => ⟨g.buffer.set pos (some (old.add var))⟩

/-- Mirrors `InputBuffer::variables(InputBuffer&& g)`: the inputs as a
list of variables. -/
def InputBuffer.variables (g : InputBuffer) : List Variable := g.buffer

/-! ### `DistAutogradContainer` (src/torch/csrc/distributed/autograd/context/container.h) -/

/-- Error surfaced by the container's `TORCH_CHECK` failures (the spec's
InvalidState condition). -/
inductive ContainerError where
  | invalidState
deriving Repr, DecidableEq

/-- Modelled from the spec: state of the per-worker `DistAutogradContainer`
singleton (container.h declares it; its translation unit is not part of
the excerpt). `next_context_id_` and `next_autograd_message_id_` are
"both seeded with the worker id in their high 16 bits"; the sharded
context map is flattened into one association list keyed by context id
(sharding only spreads lock contention, it does not change map contents);
the thread-local current context id is modelled for a single thread. -/
structure DistAutogradContainer where
  worker_id : Nat
  next_context_id : Nat
  next_autograd_message_id : Nat
  contexts : List (Nat × DistAutogradContext)
  current_context_id : Option Nat
deriving Repr

/-- Modelled from the spec: `DistAutogradContainer::init(worker_id)` with
a 16-bit worker id seeds both counters with the worker id in the high 16
bits of a 64-bit id (low 48-bit local counter starts at zero). -/
def DistAutogradContainer.init (worker_id : Nat) : DistAutogradContainer :=
  { worker_id := worker_id
    next_context_id := worker_id * 2 ^ 48
    next_autograd_message_id := worker_id * 2 ^ 48
    contexts := []
    current_context_id := none }

/-- Modelled from the spec: `getMaxId()`, the maximum possible
autograd_context_id or autograd_message_id this worker can generate —
worker id in the high 16 bits, all 48 low bits set. -/
def DistAutogradContainer.getMaxId (c : DistAutogradContainer) : Nat :=
  c.worker_id * 2 ^ 48 + (2 ^ 48 - 1)

/-- Modelled from the spec: `newContextId()` atomically returns the
counter and increments it; it "must never wrap past the 48-bit local
range (fatal if exhausted)" — exhaustion is `none`. -/
def DistAutogradContainer.newContextId (c : DistAutogradContainer) :
    Option (Nat × DistAutogradContainer) :=
  if c.next_context_id ≤ c.getMaxId then
    some (c.next_context_id, { c with next_context_id := c.next_context_id + 1 })
  else
    none

/-- Modelled from the spec: `newAutogradMessageId()`, same allocation
discipline as `newContextId()` on the message-id counter. -/
def DistAutogradContainer.newAutogradMessageId (c : DistAutogradContainer) :
    Option (Nat × DistAutogradContainer) :=
  if c.next_autograd_message_id ≤ c.getMaxId then
    some (c.next_autograd_message_id,
      { c with next_autograd_message_id := c.next_autograd_message_id + 1 })
  else
    none

/-- Ids produced by `k` successive `newContextId()` calls starting from
container state `c`. -/
def DistAutogradContainer.contextIdRun :
    DistAutogradContainer → Nat → List Nat
  | _, 0 => []
  | c, k + 1 =>
    match c.newContextId with
    | none => []
    | some p => p.1 :: contextIdRun p.2 k

/-- Ids produced by `k` successive `newAutogradMessageId()` calls starting
from container state `c`. -/
def DistAutogradContainer.messageIdRun :
    DistAutogradContainer → Nat → List Nat
  | _, 0 => []
  | c, k + 1 =>
    match c.newAutogradMessageId with
    | none => []
    | some p => p.1 :: messageIdRun p.2 k

/-- Modelled from the spec: `retrieveContext(id)` fails (a `TORCH_CHECK`,
the spec's InvalidState/NotFound condition) if the id is absent from the
context map. -/
def DistAutogradContainer.retrieveContext (c : DistAutogradContainer)
    (context_id : Nat) : Except ContainerError DistAutogradContext :=
  match c.contexts.lookup context_id with
  | none => .error .invalidState
  | some ctx => .ok ctx

/-- Modelled from the spec and the container.h comment on
`eraseContextIdAndReset`: erase `context_id` from the context map and
reset the thread-local current context id if it corresponds to it. -/
def DistAutogradContainer.eraseContextIdAndReset (c : DistAutogradContainer)
    (context_id : Nat) : DistAutogradContainer :=
  { c with
    contexts := c.contexts.filter fun kv => kv.1 != context_id
    current_context_id :=
      if c.current_context_id = some context_id then none
      else c.current_context_id }

/-- Modelled from the spec: `releaseContext(id)` removes the context and
resets the calling thread's current id if it matched; it "fails if the id
was never present". The best-effort release RPC broadcast to other
workers does not change this container's state and is not modelled. -/
def DistAutogradContainer.releaseContext (c : DistAutogradContainer)
    (context_id : Nat) : Except ContainerError DistAutogradContainer :=
  match c.contexts.lookup context_id with
  | none => .error .invalidState
  | some _ => .ok (c.eraseContextIdAndReset context_id)

/-- Modelled from the spec: `releaseContextIfPresent(id)`, "the
non-failing variant used during error unwinding": releases when present,
does nothing if the id is not present. -/
def DistAutogradContainer.releaseContextIfPresent (c : DistAutogradContainer)
    (context_id : Nat) : DistAutogradContainer :=
  match c.contexts.lookup context_id with
  | none => c
  | some _ => c.eraseContextIdAndReset context_id

/-- Modelled from the spec: `currentContext()` fails with an InvalidState
condition if no context is current on the calling thread, and otherwise
retrieves the current context. -/
def DistAutogradContainer.currentContext (c : DistAutogradContainer) :
    Except ContainerError DistAutogradContext :=
  match c.current_context_id with
  | none => .error .invalidState
  | some context_id => c.retrieveContext context_id

/-! ### `PythonEngine::execute` (src/torch/csrc/autograd/python_engine.cpp) -/

/-- Argument record of `Engine::execute`. -/
structure ExecuteArgs where
  roots : List Edge
  inputs : List Variable
  keep_graph : Bool
  create_graph : Bool
  accumulate_grad : Bool
  outputs : List Edge
deriving Repr

/-- Error raised by the GIL guard at the top of `PythonEngine::execute`. -/
inductive EngineError where
  | gilHeld
deriving Repr, DecidableEq

/-- Mirrors `PythonEngine::execute`: `TORCH_CHECK(!PyGILState_Check(), ...)`
and then delegation to `Engine::execute`, whose implementation lies
outside this excerpt and is therefore an explicit parameter `base`.
`gilHeld` models `PyGILState_Check()` on the calling thread. -/
def PythonEngine.execute (base : ExecuteArgs → List Variable)
    (gilHeld : Bool) (args : ExecuteArgs) :
    Except EngineError (List Variable) :=
  if gilHeld then .error .gilHeld
  else .ok (base args)

/-! ### `THPEngine_run_backward` (src/torch/csrc/autograd/python_engine.cpp) -/

/-- Python-level tensor argument (`THPVariable`), reduced to the fields
`THPEngine_run_backward` reads. `grad_accumulator` is the accumulator
node returned by `grad_accumulator` / `try_get_grad_accumulator` (absent
for non-leaves and for leaves without `requires_grad`). -/
structure PyTensor where
  is_batched : Bool
  requires_grad : Bool
  grad_fn : Option Nat
  grad_accumulator : Option Nat
  output_nr : Nat
  value : Variable
deriving Repr

/-- A slot of the `grad_tensors` tuple: a tensor, `None`, or any other
Python object. -/
inductive GradArg where
  | tensor (v : Variable)
  | pyNone
  | other
deriving Repr

/-- Mirrors `torch::autograd::impl::gradient_edge` (src/unnamed/part_001):
the edge to `grad_fn` at slot `output_nr` for an interior node, otherwise
the edge to the gradient accumulator at slot 0 for a leaf. -/
def gradient_edge (t : PyTensor) : Edge :=
  match t.grad_fn with
  | some f => { function := some f, input_nr := t.output_nr }
  | none => { function := t.grad_accumulator, input_nr := 0 }

/-- Errors raised by the `THPUtils_assert` / `TORCH_CHECK` guards of
`THPEngine_run_backward`, in source order. -/
inductive RunBackwardError where
  | sizeMismatch
  | vmapBackward
  | elementNotTensor
  | batchedOutput
  | noGradFunction
  | gradNoneButRequiresGrad
  | gradNotTensorOrNone
  | inputNotTensor
  | batchedInput
  | inputDoesNotRequireGrad
  | unreachableOutput
deriving Repr, DecidableEq

/-- An output edge built in the `inputs` loop: either a freshly allocated
`Identity` node (input with no `grad_fn` and no accumulator) or an
existing node with the tensor's `output_nr`. -/
inductive OutputEdge where
  | identityEdge
  | nodeEdge (function : Nat) (input_nr : Nat)
deriving Repr, DecidableEq

/-- One iteration of the roots/grads loop of `THPEngine_run_backward` for
tensors element `t` (a `none` models a tuple element that is not a
tensor) paired with its `grad_tensors` element `g`: yields the edge pushed
onto `roots` and the gradient pushed onto `grads`, if any. -/
def processRoot (t : Option PyTensor) (g : GradArg) :
    Except RunBackwardError (Edge × Option Variable) :=
  match t with
  | none => .error .elementNotTensor
  | some t =>
    if t.is_batched then .error .batchedOutput
    else
      let ge := gradient_edge t
      if ge.function.isNone then .error .noGradFunction
      else
        match g with
        | .tensor v => .ok (ge, some v)
        | .pyNone =>
          if t.requires_grad then .error .gradNoneButRequiresGrad
          else .ok (ge, none)
        | .other => .error .gradNotTensorOrNone

/-- The roots/grads loop of `THPEngine_run_backward` over the zipped
`tensors`/`grad_tensors` tuples. -/
def processRoots :
    List (Option PyTensor × GradArg) →
    Except RunBackwardError (List Edge × List Variable)
  | [] => .ok ([], [])
  | (t, g) :: rest => do
    let (e, v) ← processRoot t g
    let (es, vs) ← processRoots rest
    .ok (e :: es, match v with | some v => v :: vs | none => vs)

/-- One iteration of the `inputs` loop of `THPEngine_run_backward`:
batched check, `grad_fn` / `try_get_grad_accumulator` resolution, the
`requires_grad` check, then the output edge (the `retain_grad()` call
mutates only tensor-side state invisible to this model). -/
def processInput (t : Option PyTensor) :
    Except RunBackwardError OutputEdge :=
  match t with
  | none => .error .inputNotTensor
  | some t =>
    if t.is_batched then .error .batchedInput
    else
      let grad_fn :=
        match t.grad_fn with
        | some f => some f
        | none => t.grad_accumulator
      if t.requires_grad then
        match grad_fn with
        | none => .ok .identityEdge
        | some f => .ok (.nodeEdge f t.output_nr)
      else .error .inputDoesNotRequireGrad

/-- The `inputs` loop of `THPEngine_run_backward`. -/
def processInputs :
    List (Option PyTensor) → Except RunBackwardError (List OutputEdge)
  | [] => .ok []
  | t :: rest => do
    let e ← processInput t
    let es ← processInputs rest
    .ok (e :: es)

/-- The post-execution loop of `THPEngine_run_backward` over the first
`num_inputs` engine outputs: each must be defined unless
`allow_unreachable` is set. -/
def checkUnreachable (allow_unreachable : Bool) :
    List Variable → Except RunBackwardError (List Variable)
  | [] => .ok []
  | v :: rest =>
    if allow_unreachable || v.defined then do
      let vs ← checkUnreachable allow_unreachable rest
      .ok (v :: vs)
    else .error .unreachableOutput

/-- The engine invocation at the end of `THPEngine_run_backward`:
`engine.execute(roots, grads, keep_graph, create_graph, accumulate_grad,
output_edges)`, abstract because `Engine::execute` lies outside this
excerpt. -/
abbrev BackwardEngine :=
  List Edge → List Variable → Bool → Bool → Bool → List OutputEdge →
    List Variable

/-- Mirrors `THPEngine_run_backward` (src/torch/csrc/autograd/python_engine.cpp).
Tuple marshaling is out of scope, so `tensors`, `grad_tensors` and
`inputs` arrive as lists whose `none` elements stand for non-tensor
entries; `vmap_level` models `at::impl::VmapMode::current_vmap_level()`.
Returns `some` wrapped outputs on the `autograd.grad` path and `none`
(`Py_RETURN_NONE`) otherwise. -/
def THPEngine_run_backward (engine : BackwardEngine) (vmap_level : Nat)
    (tensors : List (Option PyTensor)) (grad_tensors : List GradArg)
    (keep_graph create_graph : Bool)
    (inputs : Option (List (Option PyTensor)))
    (allow_unreachable accumulate_grad : Bool) :
    Except RunBackwardError (Option (List Variable)) := do
  if tensors.length ≠ grad_tensors.length then
    throw .sizeMismatch
  let backward_api_called := accumulate_grad
  if backward_api_called ∧ vmap_level ≠ 0 then
    throw .vmapBackward
  let (roots, grads) ← processRoots (tensors.zip grad_tensors)
  let output_edges ←
    match inputs with
    | none => pure []
    | some ins => processInputs ins
  let outputs :=
    engine roots grads keep_graph create_graph accumulate_grad output_edges
  if !backward_api_called ∧ inputs.isSome then
    let num_inputs := (inputs.getD []).length
    let py_outputs ← checkUnreachable allow_unreachable
      ((List.range num_inputs).map fun i => outputs.getD i none)
    return some py_outputs
  else
    return none

/-! ## Theorems -/

/-- Lookup into the zero-filled gradient list: a defined slot is the
original gradient, an undefined slot is the zeros of its metadata. -/
theorem fillOutputGrads_getElem (meta : List InputMetadata)
    (grads : List Variable) (i : Nat) (gi : Variable) (mi : InputMetadata)
    (hg : grads[i]? = some gi) (hm : meta[i]? = some mi) :
    (fillOutputGrads meta grads)[i]? =
      some (gi.getD (InputMetadata.zeros_like mi)) := by
  have hi : i < grads.length := by
    by_contra h
    rw [List.getElem?_eq_none (Nat.le_of_not_lt h)] at hg
    exact Option.noConfusion hg
  unfold fillOutputGrads
  rw [List.getElem?_map, List.getElem?_range hi]
  cases gi <;> simp [List.getD, hg, hm]

/-- Length preservation of the zero-filling loop. -/
theorem fillOutputGrads_length (meta : List InputMetadata)
    (grads : List Variable) :
    (fillOutputGrads meta grads).length = grads.length := by
  simp [fillOutputGrads]

/-- Claim C9: `GraphRoot::apply` ignores its arguments and returns exactly
the initial gradient list captured at construction, unchanged. -/
theorem graphRoot_apply_returns_captured_outputs
    (functions : List Edge) (inits : List Variable) (args : List Variable) :
    (GraphRoot.make functions inits).apply args = inits := rfl

/-- Claim C3: in `RecvRpcBackward::apply`, each undefined (absent) input
slot `i` becomes a zero tensor shaped per the node's recorded input
metadata for slot `i`, and each defined slot is forwarded unchanged into
the outgoing gradient message, whose length matches the incoming list. -/
theorem recvRpcBackward_apply_fills_undefined_slots
    (node : RecvRpcBackward) (ctx : DistAutogradContext) (futureId : Nat)
    (grads : List Variable) (i : Nat) (gi : Variable) (mi : InputMetadata)
    (halive : node.autogradContext = some ctx)
    (hg : grads[i]? = some gi) (hm : node.input_metadata[i]? = some mi) :
    ∃ r, node.apply futureId grads = .ok r ∧
      r.message.grads.length = grads.length ∧
      r.message.grads[i]? = some (gi.getD (InputMetadata.zeros_like mi)) := by
  refine ⟨{ dest := node.fromWorkerId
            message := { autogradMetadata := node.autogradMetadata
                         grads := fillOutputGrads node.input_metadata grads
                         retainGraph := ctx.keepGraph }
            context := ctx.addOutstandingRpc futureId
            returned := [] }, ?_, ?_, ?_⟩
  · simp [RecvRpcBackward.apply, halive]
  · exact fillOutputGrads_length node.input_metadata grads
  · exact fillOutputGrads_getElem node.input_metadata grads i gi mi hg hm

/-- Claim C3 witness: a two-slot call with slot 0 defined and slot 1
undefined. -/
theorem recvRpcBackward_apply_fills_undefined_slots_witness :
    ∃ r, RecvRpcBackward.apply
        { autogradMetadata := { autogradContextId := 9, autogradMessageId := 4 }
          autogradContext := some { contextId := 9, keepGraph := true, outstandingRpcs := [] }
          fromWorkerId := 2
          deviceMap := []
          input_metadata := [2, 3] } 11 [some [5, 6], none] = .ok r ∧
      r.message.grads.length = 2 ∧
      r.message.grads[1]? =
        some (Option.getD none (InputMetadata.zeros_like 3)) :=
  recvRpcBackward_apply_fills_undefined_slots
    { autogradMetadata := { autogradContextId := 9, autogradMessageId := 4 }
      autogradContext := some { contextId := 9, keepGraph := true, outstandingRpcs := [] }
      fromWorkerId := 2
      deviceMap := []
      input_metadata := [2, 3] }
    { contextId := 9, keepGraph := true, outstandingRpcs := [] }
    11 [some [5, 6], none] 1 none 3 rfl rfl rfl

/-- Claim C4: `RecvRpcBackward::apply` fails with the distinguishable
"context no longer valid" error exactly when the context weak pointer no
longer locks — and an error result carries no send record, so no RPC is
issued — while a live context lets the call proceed normally. -/
theorem recvRpcBackward_apply_context_guard
    (node : RecvRpcBackward) (futureId : Nat) (grads : List Variable) :
    (node.autogradContext = none →
      node.apply futureId grads = .error .contextNoLongerValid) ∧
    (∀ ctx, node.autogradContext = some ctx →
      ∃ r, node.apply futureId grads = .ok r) := by
  constructor
  · intro hdead
    simp [RecvRpcBackward.apply, hdead]
  · intro ctx halive
    refine ⟨{ dest := node.fromWorkerId
              message := { autogradMetadata := node.autogradMetadata
                           grads := fillOutputGrads node.input_metadata grads
                           retainGraph := ctx.keepGraph }
              context := ctx.addOutstandingRpc futureId
              returned := [] }, ?_⟩
    simp [RecvRpcBackward.apply, halive]

/-- Claim C4 witness: a released context errors; a live one succeeds. -/
theorem recvRpcBackward_apply_context_guard_witness :
    RecvRpcBackward.apply
        { autogradMetadata := { autogradContextId := 1, autogradMessageId := 2 }
          autogradContext := none
          fromWorkerId := 0
          deviceMap := []
          input_metadata := [1] } 3 [none] = .error .contextNoLongerValid ∧
      ∃ r, RecvRpcBackward.apply
        { autogradMetadata := { autogradContextId := 1, autogradMessageId := 2 }
          autogradContext := some { contextId := 1, keepGraph := false, outstandingRpcs := [] }
          fromWorkerId := 0
          deviceMap := []
          input_metadata := [1] } 3 [none] = .ok r :=
  ⟨(recvRpcBackward_apply_context_guard
      { autogradMetadata := { autogradContextId := 1, autogradMessageId := 2 }
        autogradContext := none
        fromWorkerId := 0
        deviceMap := []
        input_metadata := [1] } 3 [none]).1 rfl,
   (recvRpcBackward_apply_context_guard
      { autogradMetadata := { autogradContextId := 1, autogradMessageId := 2 }
        autogradContext := some { contextId := 1, keepGraph := false, outstandingRpcs := [] }
        fromWorkerId := 0
        deviceMap := []
        input_metadata := [1] } 3 [none]).2
     { contextId := 1, keepGraph := false, outstandingRpcs := [] } rfl⟩

/-- Claim C5: every successful `RecvRpcBackward::apply` sends the gradient
message (correlated by the node's autograd metadata and carrying the
context's `keep_graph_` flag) to the worker that sent the forward data,
registers the resulting future as outstanding on the context, and returns
an empty gradient list. -/
theorem recvRpcBackward_apply_sends_and_records
    (node : RecvRpcBackward) (ctx : DistAutogradContext) (futureId : Nat)
    (grads : List Variable) (halive : node.autogradContext = some ctx) :
    ∃ r, node.apply futureId grads = .ok r ∧
      r.dest = node.fromWorkerId ∧
      r.message.autogradMetadata = node.autogradMetadata ∧
      r.message.retainGraph = ctx.keepGraph ∧
      r.context = ctx.addOutstandingRpc futureId ∧
      r.context.outstandingRpcs = ctx.outstandingRpcs ++ [futureId] ∧
      r.returned = [] := by
  refine ⟨{ dest := node.fromWorkerId
            message := { autogradMetadata := node.autogradMetadata
                         grads := fillOutputGrads node.input_metadata grads
                         retainGraph := ctx.keepGraph }
            context := ctx.addOutstandingRpc futureId
            returned := [] },
    by simp [RecvRpcBackward.apply, halive], rfl, rfl, rfl, rfl, rfl, rfl⟩

/-- Claim C5 witness: concrete successful send. -/
theorem recvRpcBackward_apply_sends_and_records_witness :
    ∃ r, RecvRpcBackward.apply
        { autogradMetadata := { autogradContextId := 8, autogradMessageId := 21 }
          autogradContext := some { contextId := 8, keepGraph := true, outstandingRpcs := [14] }
          fromWorkerId := 5
          deviceMap := []
          input_metadata := [1] } 77 [some [3]] = .ok r ∧
      r.dest = 5 ∧
      r.message.autogradMetadata = { autogradContextId := 8, autogradMessageId := 21 } ∧
      r.message.retainGraph = true ∧
      r.context = DistAutogradContext.addOutstandingRpc
        { contextId := 8, keepGraph := true, outstandingRpcs := [14] } 77 ∧
      r.context.outstandingRpcs = [14] ++ [77] ∧
      r.returned = [] :=
  recvRpcBackward_apply_sends_and_records
    { autogradMetadata := { autogradContextId := 8, autogradMessageId := 21 }
      autogradContext := some { contextId := 8, keepGraph := true, outstandingRpcs := [14] }
      fromWorkerId := 5
      deviceMap := []
      input_metadata := [1] }
    { contextId := 8, keepGraph := true, outstandingRpcs := [14] }
    77 [some [3]] rfl

/-- Claim C7: `PythonEngine::execute` fails when the calling thread holds
the GIL — the result is the GIL error for every possible underlying
`Engine::execute`, so no backward-pass work happens — and when the GIL is
not held the check passes and the call delegates to `Engine::execute`. -/
theorem pythonEngine_execute_gil_guard
    (base : ExecuteArgs → List Variable) (args : ExecuteArgs) :
    PythonEngine.execute base true args = .error .gilHeld ∧
    PythonEngine.execute base false args = .ok (base args) :=
  ⟨rfl, rfl⟩

/-- Elementwise sum of a list of equally-shaped tensors (the `sum(v_i)` of
the accumulation property). -/
def sumTensors (len : Nat) (vs : List Tensor) : Tensor :=
  vs.foldl Tensor.add (List.replicate len 0)

/-- Adding a tensor to the zero tensor of its own shape returns it. -/
theorem Tensor.add_zero_left (v : Tensor) :
    Tensor.add (List.replicate v.length 0) v = v := by
  induction v with
  | nil => rfl
  | cons x xs ih =>
    simp only [List.length_cons, List.replicate, Tensor.add, List.zipWith]
    rw [show (0 : Int) + x = x by omega]
    exact congrArg (x :: ·) ih

/-- `InputBuffer::add` on an empty slot stores the incoming value. -/
theorem InputBuffer.add_at_empty (g : InputBuffer) (pos : Nat) (var : Tensor)
    (s1 s2 : Option Nat) (h : g.buffer[pos]? = some none) :
    ((g.add pos var s1 s2).buffer)[pos]? = some (some var) := by
  have hlt : pos < g.buffer.length := by
    by_contra hge
    rw [List.getElem?_eq_none (Nat.le_of_not_lt hge)] at h
    exact Option.noConfusion h
  unfold InputBuffer.add
  simp [List.getD, h, List.getElem?_set_self, hlt]

/-- `InputBuffer::add` on an occupied slot replaces it with the elementwise
sum of the existing and incoming values. -/
theorem InputBuffer.add_at_occupied (g : InputBuffer) (pos : Nat)
    (old var : Tensor) (s1 s2 : Option Nat)
    (h : g.buffer[pos]? = some (some old)) :
    ((g.add pos var s1 s2).buffer)[pos]? = some (some (old.add var)) := by
  have hlt : pos < g.buffer.length := by
    by_contra hge
    rw [List.getElem?_eq_none (Nat.le_of_not_lt hge)] at h
    exact Option.noConfusion h
  unfold InputBuffer.add
  simp [List.getD, h, List.getElem?_set_self, hlt]

/-- Folding further additions over an occupied slot accumulates the
elementwise sum. -/
theorem InputBuffer.foldl_add_at_occupied (pos : Nat) (s1 s2 : Option Nat) :
    ∀ (vs : List Tensor) (g : InputBuffer) (a : Tensor),
      g.buffer[pos]? = some (some a) →
      ((vs.foldl (fun g v => g.add pos v s1 s2) g).buffer)[pos]? =
        some (some (vs.foldl Tensor.add a)) := by
  intro vs
  induction vs with
  | nil => intro g a h; simpa using h
  | cons v rest ih =>
    intro g a h
    simp only [List.foldl]
    exact ih (g.add pos v s1 s2) (a.add v) (g.add_at_occupied pos a v s1 s2 h)

/-- Claim C2: on a buffer of the declared size, adding `K ≥ 1` values at a
slot `p` within the size stores the first and elementwise-adds each later
one, so the slot ends up holding the elementwise sum of all contributed
values. -/
theorem inputBuffer_add_accumulates_sum
    (size p len : Nat) (vs : List Tensor) (s1 s2 : Option Nat)
    (hp : p < size) (hne : vs ≠ [])
    (hlen : ∀ v ∈ vs, v.length = len) :
    ((vs.foldl (fun g v => g.add p v s1 s2) (InputBuffer.ofSize size)).buffer)[p]? =
      some (some (sumTensors len vs)) := by
  match vs, hne with
  | v :: rest, _ =>
    have hstart : (InputBuffer.ofSize size).buffer[p]? = some none := by
      simp [InputBuffer.ofSize, List.getElem?_replicate, hp]
    have hfirst :
        (((InputBuffer.ofSize size).add p v s1 s2).buffer)[p]? = some (some v) :=
      (InputBuffer.ofSize size).add_at_empty p v s1 s2 hstart
    have hv : v.length = len := hlen v (List.mem_cons_self v rest)
    have hsum : sumTensors len (v :: rest) = rest.foldl Tensor.add v := by
      unfold sumTensors
      simp only [List.foldl]
      rw [← hv, Tensor.add_zero_left]
    rw [hsum]
    simp only [List.foldl]
    exact InputBuffer.foldl_add_at_occupied p s1 s2 rest
      ((InputBuffer.ofSize size).add p v s1 s2) v hfirst

/-- Claim C2 witness: three additions at slot 1 of a 3-slot buffer yield
the elementwise sum. -/
theorem inputBuffer_add_accumulates_sum_witness :
    (([[1, 2], [10, 20], [100, 200]].foldl
        (fun g v => g.add 1 v none none) (InputBuffer.ofSize 3)).buffer)[1]? =
      some (some (sumTensors 2 [[1, 2], [10, 20], [100, 200]])) :=
  inputBuffer_add_accumulates_sum 3 1 2 [[1, 2], [10, 20], [100, 200]]
    none none (by decide) (by decide) (by decide)

/-- Erasing a context id removes every binding for it from the map. -/
theorem lookup_filter_ne_self (id : Nat) :
    ∀ l : List (Nat × DistAutogradContext),
      (l.filter fun kv => kv.1 != id).lookup id = none := by
  intro l
  induction l with
  | nil => rfl
  | cons kv rest ih =>
    by_cases h : kv.1 = id
    · simp [List.filter_cons, h, ih]
    · have h2 : (id == kv.1) = false := by
        simp [Ne.symm h]
      simp [List.filter_cons, List.lookup, h, h2, ih]

/-- Claim C6: on an id absent from the container, `releaseContext` fails
with InvalidState, `releaseContextIfPresent` returns normally leaving the
container unchanged, and `retrieveContext` fails with InvalidState; after
a successful `releaseContext`, `retrieveContext` on the released id fails
with InvalidState; `currentContext` with no current context set fails with
InvalidState. -/
theorem container_lifecycle_errors (c : DistAutogradContainer) (id : Nat) :
    (c.contexts.lookup id = none →
      c.releaseContext id = .error .invalidState ∧
      c.releaseContextIfPresent id = c ∧
      c.retrieveContext id = .error .invalidState) ∧
    (∀ c2, c.releaseContext id = .ok c2 →
      c2.retrieveContext id = .error .invalidState) ∧
    (c.current_context_id = none →
      c.currentContext = .error .invalidState) := by
  refine ⟨?_, ?_, ?_⟩
  · intro habsent
    refine ⟨?_, ?_, ?_⟩
    · simp [DistAutogradContainer.releaseContext, habsent]
    · simp [DistAutogradContainer.releaseContextIfPresent, habsent]
    · simp [DistAutogradContainer.retrieveContext, habsent]
  · intro c2 hrel
    unfold DistAutogradContainer.releaseContext at hrel
    cases hfind : c.contexts.lookup id with
    | none => simp [hfind] at hrel
    | some ctx =>
      simp only [hfind] at hrel
      have hc2 : c2 = c.eraseContextIdAndReset id := by
        cases hrel
        rfl
      subst hc2
      simp [DistAutogradContainer.retrieveContext,
        DistAutogradContainer.eraseContextIdAndReset, lookup_filter_ne_self]
  · intro hnone
    simp [DistAutogradContainer.currentContext, hnone]

/-- Claim C6 witness: a fresh container with no contexts and
no current context, plus a release on a container that does hold id 5. -/
theorem container_lifecycle_errors_witness :
    ((DistAutogradContainer.init 7).releaseContext 5 = .error .invalidState ∧
      (DistAutogradContainer.init 7).releaseContextIfPresent 5 =
        DistAutogradContainer.init 7 ∧
      (DistAutogradContainer.init 7).retrieveContext 5 =
        .error .invalidState) ∧
    (DistAutogradContainer.mk 7 0 0 [] none).retrieveContext 5 =
      .error .invalidState ∧
    (DistAutogradContainer.init 7).currentContext = .error .invalidState := by
  have h := container_lifecycle_errors (DistAutogradContainer.init 7) 5
  have hrelease := container_lifecycle_errors
    (DistAutogradContainer.mk 7 0 0 [(5, DistAutogradContext.mk 5 false [])] (some 5)) 5
  exact ⟨h.1 rfl,
    hrelease.2.1 (DistAutogradContainer.mk 7 0 0 [] none) rfl,
    h.2.2 rfl⟩

/-- Step equation of a `newContextId()` run while the counter is in
range. -/
theorem contextIdRun_succ_of_le (c : DistAutogradContainer) (k : Nat)
    (h : c.next_context_id ≤ c.getMaxId) :
    c.contextIdRun (k + 1) =
      c.next_context_id ::
        DistAutogradContainer.contextIdRun
          { c with next_context_id := c.next_context_id + 1 } k := by
  simp [DistAutogradContainer.contextIdRun,
    DistAutogradContainer.newContextId, h]

/-- Step equation of a `newContextId()` run at exhaustion. -/
theorem contextIdRun_succ_of_gt (c : DistAutogradContainer) (k : Nat)
    (h : ¬ c.next_context_id ≤ c.getMaxId) :
    c.contextIdRun (k + 1) = [] := by
  simp [DistAutogradContainer.contextIdRun,
    DistAutogradContainer.newContextId, h]

/-- Closed form of a `newContextId()` run: consecutive ids from the
current counter value, stopping at `getMaxId`. -/
theorem contextIdRun_closed :
    ∀ (k : Nat) (c : DistAutogradContainer),
      c.contextIdRun k =
        (List.range (min k (c.getMaxId + 1 - c.next_context_id))).map
          (fun j => c.next_context_id + j) := by
  intro k
  induction k with
  | zero =>
    intro c
    simp [DistAutogradContainer.contextIdRun]
  | succ k ih =>
    intro c
    by_cases h : c.next_context_id ≤ c.getMaxId
    · rw [contextIdRun_succ_of_le c k h,
        ih { c with next_context_id := c.next_context_id + 1 }]
      have hM : ({ c with next_context_id := c.next_context_id + 1 } :
          DistAutogradContainer).getMaxId = c.getMaxId := rfl
      rw [hM]
      have hmin : min (k + 1) (c.getMaxId + 1 - c.next_context_id) =
          min k (c.getMaxId + 1 - (c.next_context_id + 1)) + 1 := by
        omega
      rw [hmin, List.range_succ_eq_map, List.map_cons, List.map_map]
      have hfun : ((fun j => c.next_context_id + j) ∘ Nat.succ) =
          fun j => c.next_context_id + 1 + j := by
        funext j
        simp [Function.comp]
        omega
      rw [hfun, Nat.add_zero]
      rfl
    · rw [contextIdRun_succ_of_gt c k h]
      have hz : c.getMaxId + 1 - c.next_context_id = 0 := by omega
      rw [hz]
      simp

/-- Step equation of a `newAutogradMessageId()` run while the counter is
in range. -/
theorem messageIdRun_succ_of_le (c : DistAutogradContainer) (k : Nat)
    (h : c.next_autograd_message_id ≤ c.getMaxId) :
    c.messageIdRun (k + 1) =
      c.next_autograd_message_id ::
        DistAutogradContainer.messageIdRun
          { c with
            next_autograd_message_id := c.next_autograd_message_id + 1 } k := by
  simp [DistAutogradContainer.messageIdRun,
    DistAutogradContainer.newAutogradMessageId, h]

/-- Step equation of a `newAutogradMessageId()` run at exhaustion. -/
theorem messageIdRun_succ_of_gt (c : DistAutogradContainer) (k : Nat)
    (h : ¬ c.next_autograd_message_id ≤ c.getMaxId) :
    c.messageIdRun (k + 1) = [] := by
  simp [DistAutogradContainer.messageIdRun,
    DistAutogradContainer.newAutogradMessageId, h]

/-- A `newAutogradMessageId()` run is a `newContextId()` run with the two
counters swapped: the two allocators share one discipline. -/
theorem messageIdRun_eq_swap :
    ∀ (k : Nat) (w n m : Nat) (ctxs : List (Nat × DistAutogradContext))
      (cur : Option Nat),
      (DistAutogradContainer.mk w n m ctxs cur).messageIdRun k =
        (DistAutogradContainer.mk w m n ctxs cur).contextIdRun k := by
  intro k
  induction k with
  | zero => intro w n m ctxs cur; rfl
  | succ k ih =>
    intro w n m ctxs cur
    by_cases h : m ≤ (DistAutogradContainer.mk w n m ctxs cur).getMaxId
    · have hm : (DistAutogradContainer.mk w n m ctxs cur).next_autograd_message_id ≤
          (DistAutogradContainer.mk w n m ctxs cur).getMaxId := h
      have hc : (DistAutogradContainer.mk w m n ctxs cur).next_context_id ≤
          (DistAutogradContainer.mk w m n ctxs cur).getMaxId := h
      rw [messageIdRun_succ_of_le _ k hm, contextIdRun_succ_of_le _ k hc]
      exact congrArg (m :: ·) (ih w n (m + 1) ctxs cur)
    · have hm : ¬ (DistAutogradContainer.mk w n m ctxs cur).next_autograd_message_id ≤
          (DistAutogradContainer.mk w n m ctxs cur).getMaxId := h
      have hc : ¬ (DistAutogradContainer.mk w m n ctxs cur).next_context_id ≤
          (DistAutogradContainer.mk w m n ctxs cur).getMaxId := h
      rw [messageIdRun_succ_of_gt _ k hm, contextIdRun_succ_of_gt _ k hc]

/-- Closed form of a `newAutogradMessageId()` run. -/
theorem messageIdRun_closed (k : Nat) (c : DistAutogradContainer) :
    c.messageIdRun k =
      (List.range (min k (c.getMaxId + 1 - c.next_autograd_message_id))).map
        (fun j => c.next_autograd_message_id + j) := by
  obtain ⟨w, n, m, ctxs, cur⟩ := c
  rw [messageIdRun_eq_swap, contextIdRun_closed]
  rfl

/-- A fresh worker's context-id run: `min k 2^48` consecutive ids starting
at `worker_id * 2^48`. -/
theorem contextIdRun_init (w k : Nat) :
    (DistAutogradContainer.init w).contextIdRun k =
      (List.range (min k (2 ^ 48))).map (fun j => w * 2 ^ 48 + j) := by
  rw [contextIdRun_closed]
  have hspan : (DistAutogradContainer.init w).getMaxId + 1 -
      (DistAutogradContainer.init w).next_context_id = 2 ^ 48 := by
    show w * 2 ^ 48 + (2 ^ 48 - 1) + 1 - w * 2 ^ 48 = 2 ^ 48
    rw [Nat.add_assoc, Nat.sub_add_cancel (Nat.one_le_two_pow),
      Nat.add_sub_cancel_left]
  rw [hspan]
  rfl

/-- A fresh worker's message-id run coincides with its context-id run. -/
theorem messageIdRun_init (w k : Nat) :
    (DistAutogradContainer.init w).messageIdRun k =
      (List.range (min k (2 ^ 48))).map (fun j => w * 2 ^ 48 + j) := by
  rw [show DistAutogradContainer.init w =
      DistAutogradContainer.mk w (w * 2 ^ 48) (w * 2 ^ 48) [] none from rfl,
    messageIdRun_eq_swap]
  exact contextIdRun_init w k

/-- Top 16 bits of a well-formed id are the worker id. -/
theorem id_topBits (w cnt : Nat) (h : cnt < 2 ^ 48) :
    (w * 2 ^ 48 + cnt) / 2 ^ 48 = w := by
  rw [Nat.mul_comm, Nat.mul_add_div (Nat.pos_pow_of_pos 48 (by omega)),
    Nat.div_eq_of_lt h, Nat.add_zero]

/-- Membership in a fresh worker's run yields the id decomposition. -/
theorem mem_run_init (w k id1 : Nat)
    (h : id1 ∈ (DistAutogradContainer.init w).contextIdRun k ∨
      id1 ∈ (DistAutogradContainer.init w).messageIdRun k) :
    ∃ cnt, cnt < 2 ^ 48 ∧ id1 = w * 2 ^ 48 + cnt := by
  rw [contextIdRun_init, messageIdRun_init, or_self, List.mem_map] at h
  obtain ⟨j, hj, hid⟩ := h
  rw [List.mem_range] at hj
  exact ⟨j, lt_of_lt_of_le hj (min_le_right _ _), hid.symm⟩

/-- Claim C1 counterexample: on a single worker with worker id 1, the
first id handed out by `newContextId()` and the first id handed out by
`newAutogradMessageId()` are the same 64-bit value (both counters are
seeded with the worker id in the high 16 bits and a zero local counter),
so this pair of generated ids does not differ. -/
theorem contextId_messageId_collide :
    (DistAutogradContainer.init 1).contextIdRun 1 = [1 * 2 ^ 48 + 0] ∧
    (DistAutogradContainer.init 1).messageIdRun 1 = [1 * 2 ^ 48 + 0] ∧
    (DistAutogradContainer.init 1).contextIdRun 1 =
      (DistAutogradContainer.init 1).messageIdRun 1 := by
  refine ⟨?_, ?_, ?_⟩ <;> rfl

/-- Claim C1 (amended): ids generated by `newContextId()` are pairwise
distinct, ids generated by `newAutogradMessageId()` are pairwise distinct,
every id of either kind equals `worker_id * 2^48 + cnt` with
`cnt < 2^48` — so its top 16 bits `id / 2^48` equal the generating
worker's id — and ids generated on two workers with distinct 16-bit
worker ids always differ, whichever of the two generators produced each.
(A context id and a message id generated on the same worker may
coincide.) -/
theorem id_generation_unique (w1 w2 k1 k2 : Nat)
    (h1 : w1 < 2 ^ 16) (h2 : w2 < 2 ^ 16) (hne : w1 ≠ w2) :
    ((DistAutogradContainer.init w1).contextIdRun k1).Nodup ∧
    ((DistAutogradContainer.init w1).messageIdRun k1).Nodup ∧
    (∀ id1, (id1 ∈ (DistAutogradContainer.init w1).contextIdRun k1 ∨
        id1 ∈ (DistAutogradContainer.init w1).messageIdRun k1) →
      (∃ cnt, cnt < 2 ^ 48 ∧ id1 = w1 * 2 ^ 48 + cnt) ∧
        id1 / 2 ^ 48 = w1) ∧
    (∀ id1 id2, (id1 ∈ (DistAutogradContainer.init w1).contextIdRun k1 ∨
        id1 ∈ (DistAutogradContainer.init w1).messageIdRun k1) →
      (id2 ∈ (DistAutogradContainer.init w2).contextIdRun k2 ∨
        id2 ∈ (DistAutogradContainer.init w2).messageIdRun k2) →
      id1 ≠ id2) := by
  have hinj : Function.Injective (fun j => w1 * 2 ^ 48 + j) := by
    intro a b hab
    simpa using hab
  refine ⟨?_, ?_, ?_, ?_⟩
  · rw [contextIdRun_init]
    exact (List.nodup_range _).map hinj
  · rw [messageIdRun_init]
    exact (List.nodup_range _).map hinj
  · intro id1 hmem
    obtain ⟨cnt, hcnt, hid⟩ := mem_run_init w1 k1 id1 hmem
    exact ⟨⟨cnt, hcnt, hid⟩, hid ▸ id_topBits w1 cnt hcnt⟩
  · intro id1 id2 hmem1 hmem2 heq
    obtain ⟨c1, hc1, hid1⟩ := mem_run_init w1 k1 id1 hmem1
    obtain ⟨c2, hc2, hid2⟩ := mem_run_init w2 k2 id2 hmem2
    apply hne
    rw [← id_topBits w1 c1 hc1, ← id_topBits w2 c2 hc2, ← hid1, ← hid2, heq]

/-- Claim C1 witness: the first three context ids of worker 1 are pairwise
distinct. -/
theorem id_generation_unique_witness :
    ((DistAutogradContainer.init 1).contextIdRun 3).Nodup :=
  (id_generation_unique 1 2 3 3 (by decide) (by decide) (by decide)).1

/-- Claim C10: `THPEngine_run_backward` fails with the size-mismatch error
whenever the tensors tuple and the grad_tensors tuple have different
lengths; the result is this error for every engine and regardless of the
tuples' contents, so no roots are built and the engine is never invoked. -/
theorem run_backward_size_mismatch
    (engine : BackwardEngine) (vmap_level : Nat)
    (tensors : List (Option PyTensor)) (grad_tensors : List GradArg)
    (keep_graph create_graph : Bool)
    (inputs : Option (List (Option PyTensor)))
    (allow_unreachable accumulate_grad : Bool)
    (hlen : tensors.length ≠ grad_tensors.length) :
    THPEngine_run_backward engine vmap_level tensors grad_tensors keep_graph
      create_graph inputs allow_unreachable accumulate_grad =
      .error .sizeMismatch := by
  simp [THPEngine_run_backward, hlen]
  rfl

/-- Claim C10 witness: one tensor, zero gradients. -/
theorem run_backward_size_mismatch_witness :
    THPEngine_run_backward (fun _ _ _ _ _ _ => []) 0 [none] [] false false
      none false false = .error .sizeMismatch :=
  run_backward_size_mismatch (fun _ _ _ _ _ _ => []) 0 [none] [] false false
    none false false (by decide)

/-- `processInput` on a tensor that does not require grad always fails. -/
theorem processInput_fails_without_requires_grad (t : PyTensor)
    (hreq : t.requires_grad = false) :
    ∃ e, processInput (some t) = .error e := by
  unfold processInput
  by_cases hb : t.is_batched
  · exact ⟨.batchedInput, by simp [hb]⟩
  · exact ⟨.inputDoesNotRequireGrad, by simp [hb, hreq]⟩

/-- The inputs loop fails whenever some element is a tensor that does not
require grad. -/
theorem processInputs_fails_of_mem (ins : List (Option PyTensor))
    (t : PyTensor) (hmem : some t ∈ ins) (hreq : t.requires_grad = false) :
    ∃ e, processInputs ins = .error e := by
  induction ins with
  | nil => cases hmem
  | cons hd rest ih =>
    match hpi : processInput hd with
    | .error e =>
      exact ⟨e, by simp only [processInputs, hpi]; rfl⟩
    | .ok edge =>
      cases hmem with
      | head =>
        obtain ⟨e, he⟩ := processInput_fails_without_requires_grad t hreq
        rw [he] at hpi
        exact Except.noConfusion hpi
      | tail _ hmem2 =>
        obtain ⟨e, he⟩ := ih hmem2
        exact ⟨e, by simp only [processInputs, hpi, he]; rfl⟩

/-- Claim C8: if some requested-output (input) tensor handed to
`THPEngine_run_backward` does not require gradient tracking, the call
fails with an error before any backward execution starts: the failing
result is identical for every engine, so `engine.execute` is never
reached. -/
theorem run_backward_requires_grad_guard
    (vmap_level : Nat)
    (tensors : List (Option PyTensor)) (grad_tensors : List GradArg)
    (keep_graph create_graph : Bool)
    (ins : List (Option PyTensor))
    (allow_unreachable accumulate_grad : Bool)
    (t : PyTensor) (hmem : some t ∈ ins) (hreq : t.requires_grad = false) :
    ∃ e, ∀ engine, THPEngine_run_backward engine vmap_level tensors
      grad_tensors keep_graph create_graph (some ins) allow_unreachable
      accumulate_grad = .error e := by
  by_cases hlen : tensors.length = grad_tensors.length
  · by_cases hv : accumulate_grad ∧ vmap_level ≠ 0
    · exact ⟨.vmapBackward, fun engine => by
        simp [THPEngine_run_backward, hlen, hv]
        rfl⟩
    · match hroots : processRoots (tensors.zip grad_tensors) with
      | .error e =>
        exact ⟨e, fun engine => by
          simp [THPEngine_run_backward, hlen, hv, hroots]
          rfl⟩
      | .ok rg =>
        obtain ⟨e, he⟩ := processInputs_fails_of_mem ins t hmem hreq
        exact ⟨e, fun engine => by
          simp [THPEngine_run_backward, hlen, hv, hroots, he]
          rfl⟩
  · exact ⟨.sizeMismatch, fun engine => by
      simp [THPEngine_run_backward, hlen]
      rfl⟩

/-- Claim C8 witness: one requested-output tensor with
`requires_grad = false`. -/
theorem run_backward_requires_grad_guard_witness :
    ∃ e, ∀ engine, THPEngine_run_backward engine 0 [] [] false false
      (some [some (PyTensor.mk false false none none 0 none)]) false false =
      .error e :=
  run_backward_requires_grad_guard 0 [] [] false false
    [some (PyTensor.mk false false none none 0 none)] false false
    (PyTensor.mk false false none none 0 none)
    (List.mem_cons_self _ _) rfl

end PyTorchYk
